import Mathlib

/-!
# Verification of the `DataManager` core (src/DataManager/DataManager.py)

A shallow embedding of the `DataManager` class: the dataset registry
(`information`), the data-collection store, the train/validation/test
partitioner (`train_validate_test_split`), dataset registration
(`__init__` / `add_datasets`), the accessors (`get_data`, `get_keys`),
the compiler (`compile_dataset`) and the inspection utility
(`view_subject`).

External collaborators (the loaders in `src/Utilities/utilities.py`, the
`FeatureExtractor`, `numpy`'s global random state, `h5py`) are not part of
the embedded source file; they are modelled at their interface boundary,
each with a doc comment saying what is modelled and from where.

Machine reals: the fraction arguments (`0.6`, `0.2`, Python floats) are
modelled as exact rationals.  For the default fractions the Python
computation `int(0.6 * m)` agrees with `⌊(3/5) * m⌋` for every subject
count `m` that fits comfortably in a double (the relative error of the
binary representation of 0.6 and 0.2 is below half an ulp of the product),
so the rational model is faithful on the whole range of realistic inputs.
Python's `int` truncates towards zero, which on the nonnegative values
arising here is the floor.
-/

/-- Subject identifiers (the values of the key column / file-map keys). -/
abbrev SubjId := String

/-- Modelled from the spec: the uniform output shape of the Source Metadata
Loaders (`read_CSV`, `get_FigShare_filemap`, `get_BRRATS_filemap` in
`src/Utilities/utilities.py`, which is not part of the embedded file).
Per the spec each loader "returns a uniform in-memory table or mapping
keyed by a per-dataset subject identifier column"; `DataManager` itself
reads `obj[columnName]` and `obj.columns` on the loaded object, so the
model is a column-addressable table: named columns, each a list of
values. -/
structure Table where
  cols : List (String × List SubjId)
deriving DecidableEq

/-- `df.columns` of a loaded table. -/
def Table.columns (t : Table) : List String := t.cols.map Prod.fst

/-- Python dictionary keys can be heterogeneous; the registry entries use
string keys, while `view_subject` indexes an entry with the integer `1`. -/
inductive PyKey where
  | str : String → PyKey
  | int : Int → PyKey
deriving DecidableEq, BEq

/-- Values stored in a registry entry: file-path strings and the `cols`
index list `[0, 3, 4, 6]`. -/
inductive RegVal where
  | str : String → RegVal
  | ints : List Nat → RegVal
deriving DecidableEq, BEq

/-- One registry entry: a Python dict (association list) for one dataset. -/
abbrev RegistryEntry := List (PyKey × RegVal)

/-- Module-level constant `ADNI = 'ADNI'`. -/
def ADNI : String := "ADNI"

/-- Module-level constant `FIG_SHARE = 'FigShare'`. -/
def FIG_SHARE : String := "FigShare"

/-- Module-level constant `BRATS = 'BRATS'`. -/
def BRATS : String := "BRATS"

/-- `DataManager.supported_datasets = [ADNI, FIG_SHARE, BRATS]`. -/
def supported_datasets : List String := [ADNI, FIG_SHARE, BRATS]

/-- The state of a `DataManager` object.  The two mutable dict attributes
`dataCollection` and `data_splits` are modelled as finite partial maps
(functions into `Option`), the static `information` dict as an
association list literal mirroring the Python source. -/
structure DataManager where
  dataCollection : String → Option Table
  data_splits : String → Option (List SubjId × List SubjId × List SubjId)
  information : List (String × RegistryEntry)

/-- Python `d[k] = v` on a dict modelled as a partial map. -/
def updMap {β : Type} (m : String → Option β) (k : String) (v : β) :
    String → Option β :=
  fun x => if x = k then some v else m x

/-- Modelled from the spec: numpy's process-global pseudorandom state
(`np.random`), an external collaborator.  The state is a natural number;
`np.random.seed(s)` resets it from the seed alone, and each draw advances
it deterministically.  The concrete step is a 64-bit linear congruential
generator, standing in for the Mersenne Twister: the claims depend only on
the state being threaded deterministically, not on the distribution. -/
def lcg (s : Nat) : Nat :=
  (6364136223846793005 * s + 1442695040888963407) % (2 ^ 64)

/-- Modelled from the spec: `np.random.seed(s)` sets the global state to a
value determined by the seed alone. -/
def npSeed (s : Nat) : Nat := s

/-- Modelled from the spec: `np.random.permutation(data)` returns a
"uniformly random permutation of all identifiers" and advances the global
state.  Fisher–Yates-style selection: draw an index from the current
state, move that element to the front of the output, recurse on the rest
with the advanced state. -/
def shuffleAux {α : Type} : Nat → List α → List α × Nat
  | g, [] => ([], g)
  | g, x :: xs =>
    let j := g % (x :: xs).length
    let pick := (x :: xs).get ⟨j, Nat.mod_lt g (by simp)⟩
    let rest := shuffleAux (lcg g) ((x :: xs).eraseIdx j)
    (pick :: rest.1, rest.2)
termination_by _ l => l.length
decreasing_by
  rw [List.length_eraseIdx_of_lt (Nat.mod_lt g (by simp))]
  simp

/-- Modelled from the spec: `np.random.permutation` on the global state. -/
def npPermutation {α : Type} (g : Nat) (l : List α) : List α × Nat :=
  shuffleAux g l

/-- The train cut point `train_end = int(train_percent * m)`.  `Int.toNat`
clamps a negative value to 0, whereas Python's `int` can go negative and a
negative slice index reindexes from the end of the array, so this model is
faithful only for nonnegative fractions; theorems quantifying over the
fractions carry `0 ≤ train_percent` / `0 ≤ valid_percent` hypotheses. -/
def trainEnd (train_percent : ℚ) (m : Nat) : Nat :=
  (⌊train_percent * (m : ℚ)⌋).toNat

/-- The validation cut point `valid_end = int(valid_percent * m) + train_end`,
with the same `Int.toNat` clamp caveat as `trainEnd`: faithful for
nonnegative fractions only. -/
def validEnd (train_percent valid_percent : ℚ) (m : Nat) : Nat :=
  (⌊valid_percent * (m : ℚ)⌋).toNat + trainEnd train_percent m

/-- `DataManager.train_validate_test_split`.  The ambient global random
state `g` is threaded explicitly (numpy's state is process-global); a
`seed` argument overrides it via `np.random.seed`.  A missing dataset or
column is a Python `KeyError`, modelled as `none`.  The three slices are
`perm[:train_end]`, `perm[train_end:valid_end]`, `perm[valid_end:]`, and
the result is stored in `data_splits` under the dataset name. -/
def train_validate_test_split (dm : DataManager) (g : Nat)
    (dataset column_header : String) (train_percent valid_percent : ℚ)
    (seed : Option Nat) : Option (DataManager × Nat) :=
  let g0 := match seed with
    | some s => npSeed s
    | none => g
  match dm.dataCollection dataset with
  | none => none
  | some t =>
    match t.cols.lookup column_header with
    | none => none
    | some data =>
      let pg := npPermutation g0 data
      let perm := pg.1
      let m := data.length
      let train_end := trainEnd train_percent m
      let valid_end := validEnd train_percent valid_percent m
      let train := perm.take train_end
      let valid := (perm.drop train_end).take (valid_end - train_end)
      let test := perm.drop valid_end
      some ({ dm with
                data_splits := updMap dm.data_splits dataset (train, valid, test) },
            pg.2)

theorem cons_eraseIdx_perm {α : Type} (l : List α) (j : Nat) (h : j < l.length) :
    List.Perm (l.get ⟨j, h⟩ :: l.eraseIdx j) l := by
  conv_rhs => rw [show l = l.take j ++ l.get ⟨j, h⟩ :: l.drop (j + 1) from by
    rw [List.get_eq_getElem, List.getElem_cons_drop l j h, List.take_append_drop]]
  rw [List.eraseIdx_eq_take_drop_succ]
  exact List.perm_middle.symm

theorem shuffleAux_perm {α : Type} (g : Nat) (l : List α) :
    List.Perm (shuffleAux g l).1 l := by
  match l with
  | [] => simp [shuffleAux]
  | x :: xs =>
    rw [shuffleAux]
    exact List.Perm.trans
      (List.Perm.cons _ (shuffleAux_perm (lcg g) _))
      (cons_eraseIdx_perm (x :: xs) _ (Nat.mod_lt g (by simp)))
termination_by l.length
decreasing_by
  rw [List.length_eraseIdx_of_lt (Nat.mod_lt g (by simp))]
  simp

theorem npPermutation_perm {α : Type} (g : Nat) (l : List α) :
    List.Perm (npPermutation g l).1 l :=
  shuffleAux_perm g l

/-- Modelled from the spec: the Source Metadata Loaders of
`src/Utilities/utilities.py` (not part of the embedded file), passed as an
environment: `read_CSV (filePath, columnIndices)`, and the two
directory-walk file-map builders `get_FigShare_filemap` and
`get_BRRATS_filemap`, each `(rootPath) -> File Map`. -/
structure LoaderEnv where
  read_CSV : String → List Nat → Table
  get_FigShare_filemap : String → Table
  get_BRRATS_filemap : String → Table

/-- The `self.information` registry dict built in `DataManager.__init__`. -/
def information (filepath : String) : List (String × RegistryEntry) :=
  [ (ADNI,
      [ (PyKey.str "metadata_filepath",
          RegVal.str (filepath ++ "ADNI/dataset_metadata.csv")),
        (PyKey.str "data_filepath",
          RegVal.str (filepath ++ "ADNI/MRI data/")),
        (PyKey.str "cols", RegVal.ints [0, 3, 4, 6]),
        (PyKey.str "key", RegVal.str "Subject") ]),
    (FIG_SHARE,
      [ (PyKey.str "data_filepath", RegVal.str (filepath ++ "/1512427/")),
        (PyKey.str "key", RegVal.str "Patient ID") ]),
    (BRATS,
      [ (PyKey.str "data_filepath", RegVal.str (filepath ++ "/BRATS/")),
        (PyKey.str "key", RegVal.str "Subject") ]) ]

/-- One iteration of the loop body of `DataManager.add_datasets`: dispatch
on the dataset name to the matching loader, update `dataCollection`, then
read the key column name from `information[dataset]` (a `KeyError`, hence
`none`, when the dataset has no registry entry) and immediately split.
The global random state is threaded alongside the object state. -/
def add_one (env : LoaderEnv) (dmg : DataManager × Nat) (dataset : String) :
    Option (DataManager × Nat) :=
  let dm := dmg.1
  let dcOpt : Option (String → Option Table) :=
    if dataset = ADNI then
      match (dm.information.lookup dataset).bind
              (fun e => e.lookup (PyKey.str "metadata_filepath")),
            (dm.information.lookup dataset).bind
              (fun e => e.lookup (PyKey.str "cols")) with
      | some (RegVal.str fp), some (RegVal.ints cols) =>
          some (updMap dm.dataCollection dataset (env.read_CSV fp cols))
      | _, _ => none
    else if dataset = FIG_SHARE then
      match (dm.information.lookup dataset).bind
              (fun e => e.lookup (PyKey.str "data_filepath")) with
      | some (RegVal.str fp) =>
          some (updMap dm.dataCollection dataset (env.get_FigShare_filemap fp))
      | _ => none
    else if dataset = BRATS then
      match (dm.information.lookup dataset).bind
              (fun e => e.lookup (PyKey.str "data_filepath")) with
      | some (RegVal.str fp) =>
          some (updMap dm.dataCollection dataset (env.get_BRRATS_filemap fp))
      | _ => none
    else
      some dm.dataCollection
  match dcOpt with
  | none => none
  | some dc =>
    let dm1 : DataManager := { dm with dataCollection := dc }
    match (dm1.information.lookup dataset).bind
            (fun e => e.lookup (PyKey.str "key")) with
    | some (RegVal.str key) =>
        train_validate_test_split dm1 dmg.2 dataset key 0.6 0.2 none
    | _ => none

/-- `DataManager.add_datasets`: the loop over the requested dataset names. -/
def add_datasets (env : LoaderEnv) (dm : DataManager) (g : Nat)
    (datasets : List String) : Option (DataManager × Nat) :=
  datasets.foldlM (fun acc d => add_one env acc d) (dm, g)

/-- The Python exceptions raised by the class: `NameError` with its message
in `__init__`, and `KeyError` from dict indexing. -/
inductive PyError where
  | nameError : String → PyError
  | keyError : PyError
deriving DecidableEq

/-- `DataManager.__init__(filepath, datasets)`: first the support check
(`raise NameError` at the first unsupported name, before anything else),
then the empty stores and the registry are created, then `add_datasets`
runs.  The loader environment and the ambient global random state are
explicit arguments. -/
def DataManager_init (env : LoaderEnv) (g : Nat) (filepath : String)
    (datasets : List String) : Except PyError (DataManager × Nat) :=
  match datasets.find? (fun d => !(supported_datasets.contains d)) with
  | some d => Except.error (PyError.nameError ("Unsupported dataset: " ++ d))
  | none =>
    let dm0 : DataManager :=
      { dataCollection := fun _ => none
        data_splits := fun _ => none
        information := information filepath }
    match add_datasets env dm0 g datasets with
    | some r => Except.ok r
    | none => Except.error PyError.keyError

/-- `DataManager.get_data`: the named column of the named dataset, `None`
(here `none`) when the dataset is not in the collection or the column name
is not among its columns. -/
def get_data (dm : DataManager) (dataset key : String) :
    Option (List SubjId) :=
  match dm.dataCollection dataset with
  | some t => if key ∈ t.columns then t.cols.lookup key else none
  | none => none

/-- `DataManager.get_keys`: the column names of the named dataset, `None`
when it is not loaded. -/
def get_keys (dm : DataManager) (dataset : String) : Option (List String) :=
  (dm.dataCollection dataset).map Table.columns

/-- The delegation `view_subject` attempts: `extract_NIFTI` on the resolved
path, subject and scan type (the decoding itself is external). -/
structure ViewCall where
  filepath : RegVal
  subject_id : String
  scan_type : String
deriving DecidableEq

/-- `DataManager.view_subject`: reads `self.information[dataset][1]` and
would then delegate to `extract_NIFTI` / `extract_slice` and display.  The
registry entry is indexed with the integer key `1`; `none` models the
`KeyError` raised when either lookup fails, in which case no delegation
happens. -/
def view_subject (dm : DataManager) (dataset subject_id : String)
    (_slice_ix : ℚ) (scan_type : String) : Option ViewCall :=
  match (dm.information.lookup dataset).bind
          (fun e => e.lookup (PyKey.int 1)) with
  | some fp => some { filepath := fp, subject_id := subject_id,
                      scan_type := scan_type }
  | none => none

/-- Values appearing as `h5` attributes and data arrays: the string-valued
configuration entries, subject-identifier sequences, and numeric feature
arrays (their element type is irrelevant to the claims). -/
inductive HVal where
  | str : String → HVal
  | ids : List SubjId → HVal
  | arr : List Int → HVal
deriving DecidableEq

/-- `hf.attrs[k] = v`: the h5py attribute mapping is a key/value store in
which assignment overwrites; modelled as a partial map. -/
def setAttr (a : String → Option HVal) (k : String) (v : HVal) :
    String → Option HVal :=
  fun x => if x = k then some v else a x

/-- The argument tuple of one
`featureExtractor.extract_features(subjects, dataset, filepath, metadata)`
call made by `compile_dataset`. -/
structure ExtractCall where
  subjects : List SubjId
  dataset : String
  filepath : String
  metadata : Table
deriving DecidableEq

/-- Modelled from the spec: `FeatureExtractor.extract_features`
(`src/DataManager/FeatureExtractor.py`, not part of the embedded file)
"yields a finite, ordered sequence of feature-record batches; each batch
is a mapping from feature name to an array of per-subject values".  It is
passed to the compiler as an opaque function. -/
abbrev Extractor :=
  List SubjId → String → String → Table → List (List (String × HVal))

/-- The compiled `.h5` container: its path, its global attribute mapping,
and its named data entries in creation order.  (h5py raises on a duplicate
entry name; name creation is modelled as a plain append, which is
equivalent for every run that succeeds.) -/
structure H5File where
  name : String
  attrs : String → Option HVal
  dsets : List (String × HVal)

/-- The inner two loops of `compile_dataset` for one split: for batch `ix`
of the extractor output and each feature name `d` in it, one entry named
`data_split + '_' + d + '_' + str(ix)`.  (The Python `ix` of
`enumerate(f)` shadows the outer split index, so the index in the name is
the batch index.) -/
def splitDsetsAux (split_name : String) :
    Nat → List (List (String × HVal)) → List (String × HVal)
  | _, [] => []
  | ix, b :: bs =>
      b.map (fun q => (split_name ++ "_" ++ q.1 ++ "_" ++ toString ix, q.2))
        ++ splitDsetsAux split_name (ix + 1) bs

/-- The data entries `compile_dataset` creates for one split. -/
def splitDsets (split_name : String)
    (batches : List (List (String × HVal))) : List (String × HVal) :=
  splitDsetsAux split_name 0 batches

/-- `DataManager.compile_dataset(params)`.  Reads `params['dataset']` and
`params['database_name']` and the registry/collection/split entries for
that dataset (`none` models the `KeyError` on any missing one); writes
every `params` key/value as an attribute; then, per split in the order
train, validation, test: records the full identifier sequence as attribute
`'subjects_' + data_split`, calls the extractor with `subjects[0:2]`, the
dataset name, the root path and the full metadata, and creates the named
data entries.  The source interleaves the per-split attribute writes,
extractor calls and entry creation inside one loop; the folds here produce
the same final container and the same ordered call list. -/
def compile_dataset (extract : Extractor) (dm : DataManager)
    (params : List (String × HVal)) : Option (H5File × List ExtractCall) :=
  match params.lookup "dataset", params.lookup "database_name" with
  | some (HVal.str dataset), some (HVal.str db_name) =>
    match dm.information.lookup dataset, dm.dataCollection dataset,
          dm.data_splits dataset with
    | some info, some metadata, some splits =>
      match info.lookup (PyKey.str "data_filepath") with
      | some (RegVal.str filepath) =>
        let attrs0 : String → Option HVal := fun _ => none
        let attrs1 := params.foldl (fun a p => setAttr a p.1 p.2) attrs0
        let named := [("train", splits.1), ("validation", splits.2.1),
                      ("test", splits.2.2)]
        let attrs2 := named.foldl
          (fun a sp => setAttr a ("subjects_" ++ sp.1) (HVal.ids sp.2)) attrs1
        let calls := named.map
          (fun sp => ExtractCall.mk (sp.2.take 2) dataset filepath metadata)
        let dsets := (named.map
          (fun sp => splitDsets sp.1
            (extract (sp.2.take 2) dataset filepath metadata))).flatten
        some (⟨"experiments/" ++ db_name ++ ".h5", attrs2, dsets⟩, calls)
      | _ => none
    | _, _, _ => none
  | _, _ => none

theorem updMap_self {β : Type} (m : String → Option β) (k : String) (v : β) :
    updMap m k v k = some v := by
  simp [updMap]

theorem take_take_drop_cover {α : Type} (l : List α) (a b : Nat) (h : a ≤ b) :
    l.take a ++ ((l.drop a).take (b - a) ++ l.drop b) = l := by
  have h2 : l.drop b = (l.drop a).drop (b - a) := by
    rw [List.drop_drop, Nat.add_sub_cancel' h]
  rw [h2, List.take_append_drop, List.take_append_drop]

theorem train_validate_test_split_eq (dm : DataManager) (g : Nat)
    (ds col : String) (tp vp : ℚ) (seed : Option Nat) (t : Table)
    (data : List SubjId) (hdc : dm.dataCollection ds = some t)
    (hcol : t.cols.lookup col = some data) :
    train_validate_test_split dm g ds col tp vp seed =
      some ({ dm with data_splits := (updMap dm.data_splits ds
          ((npPermutation (seed.elim g npSeed) data).1.take
             (trainEnd tp data.length),
           ((npPermutation (seed.elim g npSeed) data).1.drop
             (trainEnd tp data.length)).take
             (validEnd tp vp data.length - trainEnd tp data.length),
           (npPermutation (seed.elim g npSeed) data).1.drop
             (validEnd tp vp data.length))) },
        (npPermutation (seed.elim g npSeed) data).2) := by
  cases seed with
  | none => simp [train_validate_test_split, hdc, hcol]
  | some s => simp [train_validate_test_split, hdc, hcol]

/-- C4: For every dataset kind and every seed value, two invocations of
`train_validate_test_split` with the same seed, the same loaded data and
the same fractions produce identical results — whatever the ambient
process-global random state of each run was, since `np.random.seed`
overwrites it. -/
theorem split_same_seed_reproducible (dm : DataManager) (g₁ g₂ : Nat)
    (dataset column_header : String) (tp vp : ℚ) (s : Nat) :
    train_validate_test_split dm g₁ dataset column_header tp vp (some s) =
    train_validate_test_split dm g₂ dataset column_header tp vp (some s) := rfl

/-- C10: a seeded split sets the process-global random state, so a
subsequent unseeded split in the same process is fully determined by the
earlier seed: across two runs whose ambient states differ arbitrarily, a
seeded split followed by an unseeded one gives identical results for
both calls. -/
theorem seeded_split_fixes_global_state (dm : DataManager) (g₁ g₂ s : Nat)
    (ds col ds₂ col₂ : String) (tp vp tp₂ vp₂ : ℚ) :
    (train_validate_test_split dm g₁ ds col tp vp (some s)).bind
        (fun r => train_validate_test_split r.1 r.2 ds₂ col₂ tp₂ vp₂ none) =
    (train_validate_test_split dm g₂ ds col tp vp (some s)).bind
        (fun r => train_validate_test_split r.1 r.2 ds₂ col₂ tp₂ vp₂ none) := rfl

/-- C2: for a loaded dataset kind whose subject identifiers (the key
column read from the collection) are unique, the split operation with
nonnegative fractions (the embedding's faithful domain — Python
reindexes negative cut points from the end) succeeds and stores three
pairwise-disjoint sequences whose union, as a set, is exactly the set of
identifiers read from the key column. -/
theorem split_is_partition (dm : DataManager) (g : Nat) (ds col : String)
    (tp vp : ℚ) (seed : Option Nat) (t : Table) (data : List SubjId)
    (_htp : 0 ≤ tp) (_hvp : 0 ≤ vp)
    (hdc : dm.dataCollection ds = some t)
    (hcol : t.cols.lookup col = some data) (hnd : data.Nodup) :
    ∃ dm' g' tr va te,
      train_validate_test_split dm g ds col tp vp seed = some (dm', g') ∧
      dm'.data_splits ds = some (tr, va, te) ∧
      tr.Disjoint va ∧ tr.Disjoint te ∧ va.Disjoint te ∧
      (∀ x, (x ∈ tr ∨ x ∈ va ∨ x ∈ te) ↔ x ∈ data) := by
  have heq := train_validate_test_split_eq dm g ds col tp vp seed t data hdc hcol
  have hab : trainEnd tp data.length ≤ validEnd tp vp data.length :=
    Nat.le_add_left _ _
  have hcov := take_take_drop_cover (npPermutation (seed.elim g npSeed) data).1
    (trainEnd tp data.length) (validEnd tp vp data.length) hab
  have hpnd : (npPermutation (seed.elim g npSeed) data).1.Nodup :=
    ((npPermutation_perm (seed.elim g npSeed) data).nodup_iff).mpr hnd
  have hnd2 := hcov.symm ▸ hpnd
  rw [List.nodup_append] at hnd2
  obtain ⟨h1, h2, h3⟩ := hnd2
  rw [List.nodup_append] at h2
  obtain ⟨h4, h5, h6⟩ := h2
  rw [List.disjoint_append_right] at h3
  refine ⟨_, _, _, _, _, heq, updMap_self _ _ _, h3.1, h3.2, h6, ?_⟩
  intro x
  have hx : x ∈ (npPermutation (seed.elim g npSeed) data).1 ↔ x ∈ data :=
    (npPermutation_perm (seed.elim g npSeed) data).mem_iff
  rw [← hcov] at hx
  simpa [List.mem_append, or_assoc] using hx

theorem trainEnd_le_of_le_one (tp : ℚ) (h1 : tp ≤ 1) (m : Nat) :
    trainEnd tp m ≤ m := by
  unfold trainEnd
  rw [Int.toNat_le]
  calc ⌊tp * (m : ℚ)⌋ ≤ ⌊(1 : ℚ) * (m : ℚ)⌋ :=
        Int.floor_le_floor (mul_le_mul_of_nonneg_right h1 (Nat.cast_nonneg m))
    _ = m := by rw [one_mul, Int.floor_natCast]

theorem validEnd_default_le (m : Nat) : validEnd 0.6 0.2 m ≤ m := by
  unfold validEnd trainEnd
  have h2 : (0 : ℤ) ≤ ⌊(0.2 : ℚ) * (m : ℚ)⌋ :=
    Int.floor_nonneg.mpr (by positivity)
  have h6 : (0 : ℤ) ≤ ⌊(0.6 : ℚ) * (m : ℚ)⌋ :=
    Int.floor_nonneg.mpr (by positivity)
  have hsum : ⌊(0.2 : ℚ) * (m : ℚ)⌋ + ⌊(0.6 : ℚ) * (m : ℚ)⌋ ≤ (m : ℤ) := by
    have hm : ((⌊(0.2 : ℚ) * (m : ℚ)⌋ + ⌊(0.6 : ℚ) * (m : ℚ)⌋ : ℤ) : ℚ) ≤ (m : ℚ) := by
      push_cast
      have ha := Int.floor_le ((0.2 : ℚ) * (m : ℚ))
      have hb := Int.floor_le ((0.6 : ℚ) * (m : ℚ))
      have hc : (0 : ℚ) ≤ (m : ℚ) := Nat.cast_nonneg m
      nlinarith
    exact_mod_cast hm
  omega

theorem trainEnd_default_100 : trainEnd 0.6 100 = 60 := by
  norm_num [trainEnd]
  decide

theorem validEnd_default_100 : validEnd 0.6 0.2 100 = 80 := by
  norm_num [validEnd, trainEnd]
  decide

/-- C3: with the default fractions (0.6, 0.2) a split of a loaded dataset
kind with `m` subjects produces exactly `|train| = ⌊0.6·m⌋`,
`|validation| = ⌊0.2·m⌋` and `|test| = m − |train| − |validation|`; in
particular `m = 100` gives sizes 60, 20, 20. -/
theorem split_default_fraction_sizes (dm : DataManager) (g : Nat)
    (ds col : String) (seed : Option Nat) (t : Table) (data : List SubjId)
    (hdc : dm.dataCollection ds = some t)
    (hcol : t.cols.lookup col = some data) :
    ∃ dm' g' tr va te,
      train_validate_test_split dm g ds col 0.6 0.2 seed = some (dm', g') ∧
      dm'.data_splits ds = some (tr, va, te) ∧
      tr.length = (⌊(0.6 : ℚ) * (data.length : ℚ)⌋).toNat ∧
      va.length = (⌊(0.2 : ℚ) * (data.length : ℚ)⌋).toNat ∧
      te.length = data.length - tr.length - va.length ∧
      (data.length = 100 →
        tr.length = 60 ∧ va.length = 20 ∧ te.length = 20) := by
  have heq := train_validate_test_split_eq dm g ds col 0.6 0.2 seed t data hdc hcol
  have hlen : (npPermutation (seed.elim g npSeed) data).1.length = data.length :=
    (npPermutation_perm (seed.elim g npSeed) data).length_eq
  have ha_le : trainEnd 0.6 data.length ≤ data.length :=
    trainEnd_le_of_le_one 0.6 (by norm_num) data.length
  have hb_le : validEnd 0.6 0.2 data.length ≤ data.length :=
    validEnd_default_le data.length
  have hab : trainEnd 0.6 data.length ≤ validEnd 0.6 0.2 data.length :=
    Nat.le_add_left _ _
  have htr : ((npPermutation (seed.elim g npSeed) data).1.take
      (trainEnd 0.6 data.length)).length = trainEnd 0.6 data.length := by
    rw [List.length_take, hlen]
    exact Nat.min_eq_left ha_le
  have hva : (((npPermutation (seed.elim g npSeed) data).1.drop
      (trainEnd 0.6 data.length)).take
      (validEnd 0.6 0.2 data.length - trainEnd 0.6 data.length)).length =
      validEnd 0.6 0.2 data.length - trainEnd 0.6 data.length := by
    rw [List.length_take, List.length_drop, hlen]
    exact Nat.min_eq_left (Nat.sub_le_sub_right hb_le _)
  have hte : ((npPermutation (seed.elim g npSeed) data).1.drop
      (validEnd 0.6 0.2 data.length)).length =
      data.length - validEnd 0.6 0.2 data.length := by
    rw [List.length_drop, hlen]
  refine ⟨_, _, _, _, _, heq, updMap_self _ _ _, ?_, ?_, ?_, ?_⟩
  · rw [htr]; rfl
  · rw [hva]; simp [validEnd]
  · rw [hte, htr, hva]; omega
  · intro h100
    rw [htr, hva, hte, h100, trainEnd_default_100, validEnd_default_100]
    refine ⟨rfl, by decide, by decide⟩

/-- C8: with nonnegative fractions summing above 1 (the embedding's
faithful domain — Python reindexes negative cut points from the end) the
split raises no error: the
three slices still cover exactly the permuted identifier sequence, the
validation slice is clipped to whatever remains after the train slice (so
it extends into what would otherwise be the test range), and once the
validation cut point reaches the subject count the test slice is empty. -/
theorem split_overlapping_fractions_safe (dm : DataManager) (g : Nat)
    (ds col : String) (tp vp : ℚ) (t : Table) (data : List SubjId)
    (_htp : 0 ≤ tp) (_hvp : 0 ≤ vp)
    (hdc : dm.dataCollection ds = some t)
    (hcol : t.cols.lookup col = some data) (_hsum : 1 < tp + vp) :
    ∃ dm' g' tr va te,
      train_validate_test_split dm g ds col tp vp none = some (dm', g') ∧
      dm'.data_splits ds = some (tr, va, te) ∧
      tr ++ (va ++ te) = (npPermutation g data).1 ∧
      va.length = min ((⌊vp * (data.length : ℚ)⌋).toNat)
        (data.length - trainEnd tp data.length) ∧
      (data.length ≤ validEnd tp vp data.length → te = []) := by
  have heq := train_validate_test_split_eq dm g ds col tp vp none t data hdc hcol
  have hg : (none : Option Nat).elim g npSeed = g := rfl
  rw [hg] at heq
  have hab : trainEnd tp data.length ≤ validEnd tp vp data.length :=
    Nat.le_add_left _ _
  have hlen : (npPermutation g data).1.length = data.length :=
    (npPermutation_perm g data).length_eq
  refine ⟨_, _, _, _, _, heq, updMap_self _ _ _, ?_, ?_, ?_⟩
  · exact take_take_drop_cover _ _ _ hab
  · rw [List.length_take, List.length_drop, hlen]
    simp [validEnd, Nat.add_sub_cancel]
  · intro hm
    exact List.drop_eq_nil_of_le (by rw [hlen]; exact hm)

/-- A small loaded collection used as concrete input by the witnesses: one
table-backed dataset registered under the ADNI name with five subjects. -/
def demoTable : Table :=
  Table.mk [("Subject", ["s1", "s2", "s3", "s4", "s5"])]

/-- A `DataManager` state holding `demoTable` under the ADNI name. -/
def demoDM : DataManager :=
  { dataCollection := fun ds => if ds = ADNI then some demoTable else none
    data_splits := fun _ => none
    information := information "data/" }

/-- Witness for `split_is_partition` at the concrete five-subject
collection `demoDM` with ambient state 7 and the default fractions. -/
theorem split_is_partition_witness :
    ((0 : ℚ) ≤ 0.6 ∧ (0 : ℚ) ≤ 0.2 ∧
     demoDM.dataCollection ADNI = some demoTable ∧
     demoTable.cols.lookup "Subject" = some ["s1", "s2", "s3", "s4", "s5"] ∧
     (["s1", "s2", "s3", "s4", "s5"] : List SubjId).Nodup) ∧
    (∃ dm' g' tr va te,
      train_validate_test_split demoDM 7 ADNI "Subject" 0.6 0.2 none =
        some (dm', g') ∧
      dm'.data_splits ADNI = some (tr, va, te) ∧
      tr.Disjoint va ∧ tr.Disjoint te ∧ va.Disjoint te ∧
      (∀ x, (x ∈ tr ∨ x ∈ va ∨ x ∈ te) ↔
        x ∈ (["s1", "s2", "s3", "s4", "s5"] : List SubjId))) :=
  ⟨⟨by norm_num, by norm_num, rfl, rfl, by decide⟩,
   split_is_partition demoDM 7 ADNI "Subject" 0.6 0.2 none demoTable
     ["s1", "s2", "s3", "s4", "s5"] (by norm_num) (by norm_num)
     rfl rfl (by decide)⟩

/-- Witness for `split_default_fraction_sizes` at the concrete
five-subject collection `demoDM`. -/
theorem split_default_fraction_sizes_witness :
    (demoDM.dataCollection ADNI = some demoTable ∧
     demoTable.cols.lookup "Subject" = some ["s1", "s2", "s3", "s4", "s5"]) ∧
    (∃ dm' g' tr va te,
      train_validate_test_split demoDM 3 ADNI "Subject" 0.6 0.2 none =
        some (dm', g') ∧
      dm'.data_splits ADNI = some (tr, va, te) ∧
      tr.length = (⌊(0.6 : ℚ) *
        (((["s1", "s2", "s3", "s4", "s5"] : List SubjId).length : Nat) : ℚ)⌋).toNat ∧
      va.length = (⌊(0.2 : ℚ) *
        (((["s1", "s2", "s3", "s4", "s5"] : List SubjId).length : Nat) : ℚ)⌋).toNat ∧
      te.length = (["s1", "s2", "s3", "s4", "s5"] : List SubjId).length -
        tr.length - va.length ∧
      ((["s1", "s2", "s3", "s4", "s5"] : List SubjId).length = 100 →
        tr.length = 60 ∧ va.length = 20 ∧ te.length = 20)) :=
  ⟨⟨rfl, rfl⟩,
   split_default_fraction_sizes demoDM 3 ADNI "Subject" none demoTable
     ["s1", "s2", "s3", "s4", "s5"] rfl rfl⟩

/-- Witness for `split_overlapping_fractions_safe` at `demoDM` with
fractions 0.8 and 0.8 (sum 1.6 > 1): five subjects, validation cut point
8 ≥ 5, so the test slice is empty there. -/
theorem split_overlapping_fractions_safe_witness :
    ((0 : ℚ) ≤ 0.8 ∧
     demoDM.dataCollection ADNI = some demoTable ∧
     demoTable.cols.lookup "Subject" = some ["s1", "s2", "s3", "s4", "s5"] ∧
     (1 : ℚ) < 0.8 + 0.8) ∧
    (∃ dm' g' tr va te,
      train_validate_test_split demoDM 5 ADNI "Subject" 0.8 0.8 none =
        some (dm', g') ∧
      dm'.data_splits ADNI = some (tr, va, te) ∧
      tr ++ (va ++ te) =
        (npPermutation 5 (["s1", "s2", "s3", "s4", "s5"] : List SubjId)).1 ∧
      va.length = min ((⌊(0.8 : ℚ) *
          (((["s1", "s2", "s3", "s4", "s5"] : List SubjId).length : Nat) : ℚ)⌋).toNat)
        ((["s1", "s2", "s3", "s4", "s5"] : List SubjId).length -
          trainEnd 0.8 (["s1", "s2", "s3", "s4", "s5"] : List SubjId).length) ∧
      ((["s1", "s2", "s3", "s4", "s5"] : List SubjId).length ≤
          validEnd 0.8 0.8 (["s1", "s2", "s3", "s4", "s5"] : List SubjId).length →
        te = [])) :=
  ⟨⟨by norm_num, rfl, rfl, by norm_num⟩,
   split_overlapping_fractions_safe demoDM 5 ADNI "Subject" 0.8 0.8 demoTable
     ["s1", "s2", "s3", "s4", "s5"] (by norm_num) (by norm_num)
     rfl rfl (by norm_num)⟩

/-- C5: a batch of requested dataset kinds containing an unsupported one
is rejected atomically: the eager support check in `__init__` raises the
`NameError` configuration error before any loading — the result is the
same error for every loader environment and every ambient random state,
and no `DataManager` (hence no collection or split store) is produced. -/
theorem addDatasets_unsupported_atomic_reject (filepath : String)
    (datasets : List String) (d : String) (hmem : d ∈ datasets)
    (huns : d ∉ supported_datasets) :
    ∃ dd, dd ∈ datasets ∧ dd ∉ supported_datasets ∧
      ∀ env g, DataManager_init env g filepath datasets =
        Except.error (PyError.nameError ("Unsupported dataset: " ++ dd)) := by
  have hfind :
      (datasets.find? (fun x => !(supported_datasets.contains x))).isSome := by
    rw [List.find?_isSome]
    exact ⟨d, hmem, by simpa using huns⟩
  obtain ⟨dd, hdd⟩ := Option.isSome_iff_exists.mp hfind
  refine ⟨dd, List.mem_of_find?_eq_some hdd, ?_, ?_⟩
  · have hp := List.find?_some hdd
    simpa using hp
  · intro env g
    unfold DataManager_init
    rw [hdd]

/-- Witness for `addDatasets_unsupported_atomic_reject`: the batch
`["ADNI", "Bogus"]` contains the unsupported name `"Bogus"`. -/
theorem addDatasets_unsupported_atomic_reject_witness :
    ("Bogus" ∈ ["ADNI", "Bogus"] ∧ "Bogus" ∉ supported_datasets) ∧
    (∃ dd, dd ∈ ["ADNI", "Bogus"] ∧ dd ∉ supported_datasets ∧
      ∀ env g, DataManager_init env g "data/" ["ADNI", "Bogus"] =
        Except.error (PyError.nameError ("Unsupported dataset: " ++ dd))) :=
  ⟨⟨by decide, by decide⟩,
   addDatasets_unsupported_atomic_reject "data/" ["ADNI", "Bogus"] "Bogus"
     (by decide) (by decide)⟩

/-- C6: `get_data` returns the explicit absent value `none` — not an
error, not a crash — whenever the dataset kind is not loaded or the
column name does not exist for it.  It is a total function of the loaded
state, so this holds for every loaded kind, the file-map-backed ones
included. -/
theorem get_data_absent (dm : DataManager) (ds key : String)
    (h : ∀ t, dm.dataCollection ds = some t → key ∉ t.columns) :
    get_data dm ds key = none := by
  unfold get_data
  cases hdc : dm.dataCollection ds with
  | none => rfl
  | some t => simp [h t hdc]

/-- A FigShare-style loaded file map (keyed by `Patient ID`) used by the
`get_data` witness. -/
def demoFigTable : Table :=
  Table.mk [("Patient ID", ["p1", "p2", "p3"])]

/-- A `DataManager` state with only the FigShare kind loaded. -/
def demoDMFig : DataManager :=
  { dataCollection := fun ds => if ds = FIG_SHARE then some demoFigTable else none
    data_splits := fun _ => none
    information := information "data/" }

/-- Witness for `get_data_absent`: the FigShare kind is loaded but has no
`Age` column, and `get_data` answers `none`. -/
theorem get_data_absent_witness :
    (∀ t, demoDMFig.dataCollection FIG_SHARE = some t → "Age" ∉ t.columns) ∧
    get_data demoDMFig FIG_SHARE "Age" = none :=
  ⟨fun t ht => (Option.some.inj ht) ▸ (by decide),
   get_data_absent demoDMFig FIG_SHARE "Age"
     (fun t ht => (Option.some.inj ht) ▸ (by decide))⟩

/-- C9 (code bug): `view_subject` reads `self.information[dataset][1]`,
but every registry entry built by `__init__` is a string-keyed dict (the
class docstring still documents the older list layout), so for every
registered kind the integer lookup raises `KeyError` and the delegation to
the volume decoder and slice extractor never happens. -/
theorem view_subject_always_keyerror (fp : String) (dm : DataManager)
    (ds subj : String) (six : ℚ) (st : String)
    (hinfo : dm.information = information fp)
    (hds : ds ∈ supported_datasets) :
    view_subject dm ds subj six st = none := by
  unfold view_subject
  rw [hinfo]
  simp only [supported_datasets, List.mem_cons, List.not_mem_nil, or_false] at hds
  rcases hds with rfl | rfl | rfl <;> rfl

/-- Witness for `view_subject_always_keyerror`: viewing an ADNI subject on
a freshly prepared state fails before delegation. -/
theorem view_subject_always_keyerror_witness :
    (demoDM.information = information "data/" ∧ ADNI ∈ supported_datasets) ∧
    view_subject demoDM ADNI "s1" (1 / 2 : ℚ) "T1" = none :=
  ⟨⟨rfl, by decide⟩,
   view_subject_always_keyerror "data/" demoDM ADNI "s1" (1 / 2 : ℚ) "T1"
     rfl (by decide)⟩

theorem setAttr_same (a : String → Option HVal) (k : String) (v : HVal) :
    setAttr a k v k = some v := by
  simp [setAttr]

theorem setAttr_other (a : String → Option HVal) (k k2 : String) (v : HVal)
    (h : k2 ≠ k) : setAttr a k v k2 = a k2 := by
  simp [setAttr, h]

theorem foldl_setAttr_not_mem (ps : List (String × HVal))
    (a : String → Option HVal) (k : String) (h : k ∉ ps.map Prod.fst) :
    (ps.foldl (fun acc p => setAttr acc p.1 p.2) a) k = a k := by
  induction ps generalizing a with
  | nil => rfl
  | cons p ps ih =>
    simp only [List.map_cons, List.mem_cons] at h
    push_neg at h
    rw [List.foldl_cons, ih _ h.2, setAttr_other _ _ _ _ h.1]

theorem foldl_setAttr_mem (ps : List (String × HVal))
    (a : String → Option HVal) (k : String) (v : HVal)
    (hnd : (ps.map Prod.fst).Nodup) (hmem : (k, v) ∈ ps) :
    (ps.foldl (fun acc p => setAttr acc p.1 p.2) a) k = some v := by
  induction ps generalizing a with
  | nil => cases hmem
  | cons p ps ih =>
    rw [List.foldl_cons]
    rcases List.mem_cons.mp hmem with heq | hmem2
    · cases heq.symm
      simp only [List.map_cons, List.nodup_cons] at hnd
      rw [foldl_setAttr_not_mem ps _ k hnd.1, setAttr_same]
    · simp only [List.map_cons, List.nodup_cons] at hnd
      exact ih _ hnd.2 hmem2

theorem splitDsetsAux_name (sn : String) (ix : Nat)
    (bs : List (List (String × HVal))) (p : String × HVal)
    (hp : p ∈ splitDsetsAux sn ix bs) :
    ∃ (fn : String) (i : Nat), p.1 = sn ++ "_" ++ fn ++ "_" ++ toString i := by
  induction bs generalizing ix with
  | nil => cases hp
  | cons b bs ih =>
    rcases List.mem_append.mp hp with h | h
    · obtain ⟨q, _, rfl⟩ := List.mem_map.mp h
      exact ⟨q.1, ix, rfl⟩
    · exact ih (ix + 1) h

theorem splitDsets_name (sn : String) (bs : List (List (String × HVal)))
    (p : String × HVal) (hp : p ∈ splitDsets sn bs) :
    ∃ (fn : String) (i : Nat), p.1 = sn ++ "_" ++ fn ++ "_" ++ toString i :=
  splitDsetsAux_name sn 0 bs p hp

/-- A state with splits already assigned to the ADNI kind, used by the
compile theorems: the train split holds three subjects. -/
def demoDMSplit : DataManager :=
  { dataCollection := fun ds => if ds = ADNI then some demoTable else none
    data_splits := fun ds =>
      if ds = ADNI then some (["s1", "s2", "s3"], ["s4"], ["s5"]) else none
    information := information "data/" }

/-- A concrete extractor: one batch holding one feature per call. -/
def demoExtract : Extractor :=
  fun subjects _ _ _ => [[("image", HVal.ids subjects)]]

/-- A concrete compile configuration record. -/
def demoParams : List (String × HVal) :=
  [("dataset", HVal.str ADNI), ("database_name", HVal.str "db"),
   ("scan_type", HVal.str "T1")]

/-- The ADNI registry entry of `information "data/"`, spelled out. -/
def demoInfoADNI : RegistryEntry :=
  [ (PyKey.str "metadata_filepath", RegVal.str "data/ADNI/dataset_metadata.csv"),
    (PyKey.str "data_filepath", RegVal.str "data/ADNI/MRI data/"),
    (PyKey.str "cols", RegVal.ints [0, 3, 4, 6]),
    (PyKey.str "key", RegVal.str "Subject") ]

/-- C1 counterexample: at a concrete state whose train split holds three
subjects, the compiler invokes the extractor with only the first two of
them (`subjects[0:2]`), not with the split's full sequence. -/
theorem compile_truncates_extractor_subjects :
    demoDMSplit.data_splits ADNI = some (["s1", "s2", "s3"], ["s4"], ["s5"]) ∧
    (compile_dataset demoExtract demoDMSplit demoParams).map
        (fun r => r.2.map ExtractCall.subjects) =
      some [["s1", "s2"], ["s4"], ["s5"]] ∧
    (["s1", "s2"] : List SubjId) ≠ ["s1", "s2", "s3"] := by
  refine ⟨rfl, rfl, by decide⟩

/-- C1 (amended): for every successful compile the Feature Extractor is
invoked once per split in the order train, validation, test, each time
with the first two identifiers (`subjects[0:2]`) of that split's stored
sequence — not the full sequence — together with the dataset kind, the
root data path resolved from the registry, and the loaded
metadata/file-map for that kind. -/
theorem compile_extractor_call_shape (ex : Extractor) (dm : DataManager)
    (params : List (String × HVal)) (ds dbn : String)
    (info : RegistryEntry) (t : Table) (fp : String)
    (tr va te : List SubjId)
    (hds : params.lookup "dataset" = some (HVal.str ds))
    (hdb : params.lookup "database_name" = some (HVal.str dbn))
    (hinfo : dm.information.lookup ds = some info)
    (hdc : dm.dataCollection ds = some t)
    (hsp : dm.data_splits ds = some (tr, va, te))
    (hfp : info.lookup (PyKey.str "data_filepath") = some (RegVal.str fp)) :
    (compile_dataset ex dm params).map (fun r => r.2) =
      some [ExtractCall.mk (tr.take 2) ds fp t,
            ExtractCall.mk (va.take 2) ds fp t,
            ExtractCall.mk (te.take 2) ds fp t] := by
  simp [compile_dataset, hds, hdb, hinfo, hdc, hsp, hfp]

/-- Witness for `compile_extractor_call_shape` at the concrete state
`demoDMSplit` with the concrete extractor and params. -/
theorem compile_extractor_call_shape_witness :
    (demoParams.lookup "dataset" = some (HVal.str ADNI) ∧
     demoParams.lookup "database_name" = some (HVal.str "db") ∧
     demoDMSplit.information.lookup ADNI = some demoInfoADNI ∧
     demoDMSplit.dataCollection ADNI = some demoTable ∧
     demoDMSplit.data_splits ADNI = some (["s1", "s2", "s3"], ["s4"], ["s5"]) ∧
     demoInfoADNI.lookup (PyKey.str "data_filepath") =
       some (RegVal.str "data/ADNI/MRI data/")) ∧
    (compile_dataset demoExtract demoDMSplit demoParams).map (fun r => r.2) =
      some [ExtractCall.mk ((["s1", "s2", "s3"] : List SubjId).take 2)
              ADNI "data/ADNI/MRI data/" demoTable,
            ExtractCall.mk ((["s4"] : List SubjId).take 2)
              ADNI "data/ADNI/MRI data/" demoTable,
            ExtractCall.mk ((["s5"] : List SubjId).take 2)
              ADNI "data/ADNI/MRI data/" demoTable] :=
  ⟨⟨rfl, rfl, rfl, rfl, rfl, rfl⟩,
   compile_extractor_call_shape demoExtract demoDMSplit demoParams ADNI "db"
     demoInfoADNI demoTable "data/ADNI/MRI data/"
     ["s1", "s2", "s3"] ["s4"] ["s5"] rfl rfl rfl rfl rfl rfl⟩

/-- A params record whose extraction options include a key that collides
with the reserved attribute name `subjects_train`. -/
def cexParams : List (String × HVal) :=
  [("dataset", HVal.str ADNI), ("database_name", HVal.str "db"),
   ("subjects_train", HVal.ids ["zzz"])]

/-- C7 counterexample: the params record may itself carry a key named
`subjects_train`; the compile succeeds, but the final attribute holds the
split sequence, not the params value — so the container's attributes do
not contain every key/value from the params record. -/
theorem compile_attrs_override_params :
    ("subjects_train", HVal.ids ["zzz"]) ∈ cexParams ∧
    (compile_dataset demoExtract demoDMSplit cexParams).map
        (fun r => r.1.attrs "subjects_train") =
      some (some (HVal.ids ["s1", "s2", "s3"])) ∧
    some (HVal.ids ["s1", "s2", "s3"]) ≠ some (HVal.ids ["zzz"]) := by
  refine ⟨by decide, rfl, by decide⟩

/-- C7 (amended): for every successful compile the container's global
attributes hold every key/value of the params record except that the
three reserved names `subjects_train`, `subjects_validation` and
`subjects_test` end up bound to the corresponding full split identifier
sequences (overriding a like-named params key, which is written first and
then overwritten), and every data entry is named by concatenating the
split name, the feature name and the batch index as
`<split>_<featureName>_<batchIndex>`. -/
theorem compile_container_layout (ex : Extractor) (dm : DataManager)
    (params : List (String × HVal)) (ds dbn : String)
    (info : RegistryEntry) (t : Table) (fp : String)
    (tr va te : List SubjId)
    (hds : params.lookup "dataset" = some (HVal.str ds))
    (hdb : params.lookup "database_name" = some (HVal.str dbn))
    (hinfo : dm.information.lookup ds = some info)
    (hdc : dm.dataCollection ds = some t)
    (hsp : dm.data_splits ds = some (tr, va, te))
    (hfp : info.lookup (PyKey.str "data_filepath") = some (RegVal.str fp))
    (hnd : (params.map Prod.fst).Nodup) :
    ∃ file calls, compile_dataset ex dm params = some (file, calls) ∧
      (∀ k v, (k, v) ∈ params →
        k ∉ (["subjects_train", "subjects_validation", "subjects_test"] :
          List String) →
        file.attrs k = some v) ∧
      file.attrs "subjects_train" = some (HVal.ids tr) ∧
      file.attrs "subjects_validation" = some (HVal.ids va) ∧
      file.attrs "subjects_test" = some (HVal.ids te) ∧
      (∀ p ∈ file.dsets, ∃ (sn fn : String) (ix : Nat),
        sn ∈ (["train", "validation", "test"] : List String) ∧
        p.1 = sn ++ "_" ++ fn ++ "_" ++ toString ix) := by
  refine ⟨⟨"experiments/" ++ dbn ++ ".h5",
      setAttr (setAttr (setAttr
          (params.foldl (fun a p => setAttr a p.1 p.2) (fun _ => none))
          "subjects_train" (HVal.ids tr))
        "subjects_validation" (HVal.ids va))
        "subjects_test" (HVal.ids te),
      splitDsets "train" (ex (tr.take 2) ds fp t) ++
        (splitDsets "validation" (ex (va.take 2) ds fp t) ++
          splitDsets "test" (ex (te.take 2) ds fp t))⟩,
    [ExtractCall.mk (tr.take 2) ds fp t, ExtractCall.mk (va.take 2) ds fp t,
     ExtractCall.mk (te.take 2) ds fp t], ?_, ?_, ?_, ?_, ?_, ?_⟩
  · simp [compile_dataset, hds, hdb, hinfo, hdc, hsp, hfp]
  · intro k v hkv hres
    simp only [List.mem_cons, List.not_mem_nil, or_false] at hres
    push_neg at hres
    dsimp only
    rw [setAttr_other _ _ _ _ hres.2.2, setAttr_other _ _ _ _ hres.2.1,
        setAttr_other _ _ _ _ hres.1]
    exact foldl_setAttr_mem params _ k v hnd hkv
  · dsimp only
    rw [setAttr_other _ _ _ _ (by decide), setAttr_other _ _ _ _ (by decide),
        setAttr_same]
  · dsimp only
    rw [setAttr_other _ _ _ _ (by decide), setAttr_same]
  · dsimp only
    rw [setAttr_same]
  · intro p hp
    dsimp only at hp
    rcases List.mem_append.mp hp with h1 | h23
    · obtain ⟨fn, i, hname⟩ := splitDsets_name _ _ _ h1
      exact ⟨"train", fn, i, by decide, hname⟩
    · rcases List.mem_append.mp h23 with h2 | h3
      · obtain ⟨fn, i, hname⟩ := splitDsets_name _ _ _ h2
        exact ⟨"validation", fn, i, by decide, hname⟩
      · obtain ⟨fn, i, hname⟩ := splitDsets_name _ _ _ h3
        exact ⟨"test", fn, i, by decide, hname⟩

/-- Witness for `compile_container_layout` at the concrete state
`demoDMSplit` with the concrete extractor and params. -/
theorem compile_container_layout_witness :
    (demoParams.lookup "dataset" = some (HVal.str ADNI) ∧
     demoParams.lookup "database_name" = some (HVal.str "db") ∧
     demoDMSplit.information.lookup ADNI = some demoInfoADNI ∧
     demoDMSplit.dataCollection ADNI = some demoTable ∧
     demoDMSplit.data_splits ADNI = some (["s1", "s2", "s3"], ["s4"], ["s5"]) ∧
     demoInfoADNI.lookup (PyKey.str "data_filepath") =
       some (RegVal.str "data/ADNI/MRI data/") ∧
     (demoParams.map Prod.fst).Nodup) ∧
    (∃ file calls,
      compile_dataset demoExtract demoDMSplit demoParams = some (file, calls) ∧
      (∀ k v, (k, v) ∈ demoParams →
        k ∉ (["subjects_train", "subjects_validation", "subjects_test"] :
          List String) →
        file.attrs k = some v) ∧
      file.attrs "subjects_train" = some (HVal.ids ["s1", "s2", "s3"]) ∧
      file.attrs "subjects_validation" = some (HVal.ids ["s4"]) ∧
      file.attrs "subjects_test" = some (HVal.ids ["s5"]) ∧
      (∀ p ∈ file.dsets, ∃ (sn fn : String) (ix : Nat),
        sn ∈ (["train", "validation", "test"] : List String) ∧
        p.1 = sn ++ "_" ++ fn ++ "_" ++ toString ix)) :=
  ⟨⟨rfl, rfl, rfl, rfl, rfl, rfl, by decide⟩,
   compile_container_layout demoExtract demoDMSplit demoParams ADNI "db"
     demoInfoADNI demoTable "data/ADNI/MRI data/"
     ["s1", "s2", "s3"] ["s4"] ["s5"] rfl rfl rfl rfl rfl rfl (by decide)⟩
